import Mathlib

/-!
# Verification of `clevertree/relay-clients` (core client runtime)

Shallow embedding of the parts of the repository that the frozen claims
are about, together with theorems settling each claim:

* the JSX automatic-runtime factory `createJsxFactory` (and the
  `mockReact.createElement` it is composed with), from
  `src/shared/src/runtimeLoader.test.ts` lines 10–42;
* the themed-styler bridge (`registerUsage`, `clearUsage`,
  `getUsageSnapshot`, `registerTheme`, `setCurrentTheme`, `getThemes`,
  `getCssForWeb`), from `src/packages/shared/src/themedStylerBridge.ts`;
* `buildPeer` from `src/packages/web/src/components/HookRenderer.tsx`;
* a reference-cell model of the read operations' copy semantics
  (`Array.from(...)`, `{ ...themes }`);
* a model of the Hook Loader's in-flight cache (its implementation is
  not under `src/`; modelled from the spec).

JavaScript values that appear in props bags are modelled by `JsVal`;
JS objects (props bags) by association lists with first-occurrence
lookup (JS objects have unique keys, so first = last occurrence).
-/

/-- A JavaScript value as far as the embedded code inspects one:
strings, (integer) numbers, `null`, `undefined`, and arrays. -/
inductive JsVal where
  | vstr : String → JsVal
  | vnum : Int → JsVal
  | vnull : JsVal
  | vundef : JsVal
  | varr : List JsVal → JsVal

/-- JS strict equality with `undefined` (`v === undefined`): true
exactly for the value `undefined`. -/
def JsVal.isUndef : JsVal → Bool
  | .vundef => true
  | _ => false

/-- JS truthiness of a `JsVal` (`''` and `0` are falsy, objects/arrays
are truthy, `null`/`undefined` are falsy). -/
def JsVal.truthy : JsVal → Bool
  | .vstr s => s != ""
  | .vnum n => n != 0
  | .vnull => false
  | .vundef => false
  | .varr _ => true

mutual

/-- JS `String(v)` conversion for the values above.  For arrays this is
`Array.prototype.toString`, i.e. `join(',')` where `null`/`undefined`
elements render as the empty string. -/
def jsString : JsVal → String
  | .vstr s => s
  | .vnum n => toString n
  | .vnull => "null"
  | .vundef => "undefined"
  | .varr xs => jsJoin xs

/-- `Array.prototype.join(',')` over the element renderings. -/
def jsJoin : List JsVal → String
  | [] => ""
  | [x] => jsElemString x
  | x :: y :: xs => jsElemString x ++ "," ++ jsJoin (y :: xs)

/-- How `Array.prototype.join` renders one element: `null` and
`undefined` become the empty string. -/
def jsElemString : JsVal → String
  | .vnull => ""
  | .vundef => ""
  | .vstr s => s
  | .vnum n => toString n
  | .varr xs => jsJoin xs

end

/-- A JS props object: an association list with unique keys in
insertion order. -/
abbrev Props := List (String × JsVal)

/-- Property read `p[k]`; `none` models an absent field. -/
def getField (p : Props) (k : String) : Option JsVal :=
  (p.find? (fun q => q.1 == k)).map (fun q => q.2)

/-- JS `k in p` (present even when the stored value is `undefined`). -/
def hasField (p : Props) (k : String) : Bool :=
  (getField p k).isSome

/-- Spread-with-override `{ ...p, k: v }`: replaces the field in place
when present, appends it otherwise. -/
def setField (p : Props) (k : String) (v : JsVal) : Props :=
  if p.any (fun q => q.1 == k) then
    p.map (fun q => if q.1 == k then (k, v) else q)
  else
    p ++ [(k, v)]

/-- Rest-destructuring `const { k: _drop, ...rest } = p`. -/
def removeField (p : Props) (k : String) : Props :=
  p.filter (fun q => q.1 != k)

/-- The element record produced by the mock classic creator in
`runtimeLoader.test.ts` (lines 10–23). -/
structure Element where
  etype : String
  eprops : Props
  ekey : JsVal
  eref : JsVal

/-- `mockReact.createElement` from `runtimeLoader.test.ts` lines 11–21:
```
createElement: (type, props, ...children) => ({
  type,
  props: { ...props, children: children.length > 0 ? children : props?.children },
  key: props?.key || null,
  ref: props?.ref || null,
})
```
A rest parameter collects every explicitly passed child, so an explicit
`undefined` third argument yields `children = [undefined]` of length 1. -/
def mockCreateElement (ty : String) (props : Props) (children : List JsVal) : Element :=
  { etype := ty
    eprops := setField props "children"
      (if children.length > 0 then JsVal.varr children
       else (getField props "children").getD JsVal.vundef)
    ekey :=
      (let k := (getField props "key").getD JsVal.vundef
       if k.truthy then k else JsVal.vnull)
    eref :=
      (let r := (getField props "ref").getD JsVal.vundef
       if r.truthy then r else JsVal.vnull) }

/-- The automatic-runtime JSX factory returned by `createJsxFactory`
(`runtimeLoader.test.ts` lines 26–42), composed with the mock classic
creator above (the only `createElement` in the repository sources):
```
(type, config, maybeKey) => {
  let key = null
  if (maybeKey !== undefined) key = String(maybeKey)
  if (config && 'key' in config) {
    key = String(config.key)
    const { key: _k, ...propsWithoutKey } = config
    return React.createElement(type, { ...propsWithoutKey, key }, undefined)
  }
  return React.createElement(type, { ...config, key }, undefined)
}
```
`config` is a props object in every claim, so the `config &&` guard is
satisfied. -/
def jsxFactory (ty : String) (config : Props) (maybeKey : JsVal) : Element :=
  let key0 : JsVal :=
    if maybeKey.isUndef then JsVal.vnull else JsVal.vstr (jsString maybeKey)
  if hasField config "key" then
    let key := JsVal.vstr (jsString ((getField config "key").getD JsVal.vundef))
    let propsWithoutKey := removeField config "key"
    mockCreateElement ty (setField propsWithoutKey "key" key) [JsVal.vundef]
  else
    mockCreateElement ty (setField config "key" key0) [JsVal.vundef]

/-! ## Themed-styler bridge (`src/packages/shared/src/themedStylerBridge.ts`)

Module state: three insertion-ordered JS `Set`s of strings (usage),
a `themes` record, and `currentTheme : string | null`.  A JS `Set`
preserves first-insertion order and re-adding an existing element is a
no-op, so each set is modelled as a duplicate-free list with
`addOnce`. -/

/-- An opaque theme definition (`Record<string, unknown>`); the bridge
never inspects it, it only stores and copies it. -/
abbrev ThemeDef := List (String × String)

/-- The usage registry: the three sets of `themedStylerBridge.ts`
lines 11–15 (`tags`, `classes`, `tagClasses`). -/
structure Usage where
  tags : List String
  classes : List String
  tagClasses : List String
deriving DecidableEq

/-- `Set.prototype.add`: append unless already a member. -/
def addOnce (l : List String) (x : String) : List String :=
  if x ∈ l then l else l ++ [x]

/-- The class-like value the source reads:
`props ? ((props.className || props.class || '') as string) : ''`
(JS `||` returns the first truthy operand, else the last one). -/
def classAttrVal (props : Option Props) : JsVal :=
  match props with
  | none => JsVal.vstr ""
  | some p =>
    let a := (getField p "className").getD JsVal.vundef
    if a.truthy then a else
      let b := (getField p "class").getD JsVal.vundef
      if b.truthy then b else JsVal.vstr ""

/-- The maximal non-whitespace words of a character list, in order:
what `split(/\s+/).map(c => c.trim()).filter(Boolean)` computes
(splitting on runs of whitespace leaves nothing to trim, and
`filter(Boolean)` drops the empty pieces a leading/trailing run
produces).  `acc` holds the reversed characters of the word being
read. -/
def wsWordsAux : List Char → List Char → List String
  | [], acc => if acc.isEmpty then [] else [String.mk acc.reverse]
  | c :: cs, acc =>
    if c.isWhitespace then
      if acc.isEmpty then wsWordsAux cs [] else String.mk acc.reverse :: wsWordsAux cs []
    else wsWordsAux cs (c :: acc)

/-- The whitespace-separated words of a string. -/
def wsWords (s : String) : List String := wsWordsAux s.data []

/-- The `classes` list of `registerUsage`:
`typeof cls === 'string' && cls.trim().length ? cls.split(/\s+/).map(c => c.trim()).filter(Boolean) : []`.
`cls.trim().length` is non-zero exactly when the string has a
non-whitespace character; a non-string class value yields no tokens. -/
def classTokens (props : Option Props) : List String :=
  match classAttrVal props with
  | JsVal.vstr s => if s.data.any (fun c => !c.isWhitespace) then wsWords s else []
  | _ => []

/-- The class-like attribute as claim C6 words it: "className, or
class when className is absent" — i.e. the `className` field whenever
it is present, falling back to `class` only when `className` is not a
field of the props object.  Stated for comparison with `classAttrVal`,
which is what the source computes. -/
def claimClassAttrC6 (props : Option Props) : JsVal :=
  match props with
  | none => JsVal.vstr ""
  | some p =>
    match getField p "className" with
    | some v => v
    | none => (getField p "class").getD (JsVal.vstr "")

/-- The loop body of `registerUsage` (lines 27–30): for one class
token, `usage.classes.add(c)` and, when the tag is truthy,
`usage.tagClasses.add(tag + '|' + c)`. -/
def usageAddClass (tag : String) (acc : Usage) (c : String) : Usage :=
  { acc with
    classes := addOnce acc.classes c
    tagClasses :=
      if tag != "" then addOnce acc.tagClasses (tag ++ "|" ++ c) else acc.tagClasses }

/-- `registerUsage(tag, props?)` (`themedStylerBridge.ts` lines 20–33):
adds the tag (when truthy) to the tag set and, for each class token,
the token to the class set and, when the tag is truthy, the pair
encoded as `tag|class` to the composite set.  The `hierarchy` third
parameter is unused by the source and omitted. -/
def registerUsageU (u : Usage) (tag : String) (props : Option Props) : Usage :=
  let u1 := if tag != "" then { u with tags := addOnce u.tags tag } else u
  (classTokens props).foldl (usageAddClass tag) u1

/-- `clearUsage()` (lines 35–39). -/
def clearUsageU (_u : Usage) : Usage := ⟨[], [], []⟩

/-- `getUsageSnapshot()` (lines 41–47): the three sets read out as
arrays in insertion order (`Array.from(set.values())`). -/
def getUsageSnapshotU (u : Usage) : List String × List String × List String :=
  (u.tags, u.classes, u.tagClasses)

/-- Whole-bridge module state: usage sets, `themes` record and
`currentTheme : string | null` (lines 11–18). -/
structure Bridge where
  usage : Usage
  themes : List (String × ThemeDef)
  currentTheme : Option String
deriving DecidableEq

/-- The bridge state right after module load: empty sets, no themes,
`currentTheme = null`. -/
def emptyBridge : Bridge := ⟨⟨[], [], []⟩, [], none⟩

/-- JS truthiness of `currentTheme : string | null` (`null` and the
empty string are falsy). -/
def currentTruthy : Option String → Bool
  | none => false
  | some s => s != ""

/-- Record update `themes[name] = defs || {}`: replace in place when
the name exists, append otherwise (JS objects keep insertion order). -/
def setTheme (ts : List (String × ThemeDef)) (name : String) (d : ThemeDef) :
    List (String × ThemeDef) :=
  if ts.any (fun q => q.1 == name) then
    ts.map (fun q => if q.1 == name then (name, d) else q)
  else
    ts ++ [(name, d)]

/-- Lookup `themes[name]`. -/
def getTheme (ts : List (String × ThemeDef)) (name : String) : Option ThemeDef :=
  (ts.find? (fun q => q.1 == name)).map (fun q => q.2)

/-!
Each bridge operation is paired with a `Bool` that records whether the
operation requests a style re-render (i.e. reaches a
`styleManager.requestRender()` call).  In the source:

* `registerUsage` (lines 20–33) only mutates the three sets — it
  contains no `requestRender` call;
* `registerTheme` (lines 49–56) stores the definition, possibly
  activates the first theme, and publishes `__bridgeGetThemes` — no
  `requestRender` call;
* `setCurrentTheme` (lines 58–73) sets the current theme and then
  requests an immediate CSS re-render through the lazily imported
  `styleManager` (`m.requestRender()`).
-/

/-- `registerUsage` as a bridge operation; requests no render. -/
def registerUsageOp (b : Bridge) (tag : String) (props : Option Props) : Bridge × Bool :=
  ({ b with usage := registerUsageU b.usage tag props }, false)

/-- `registerTheme(name, defs?)` (lines 49–56): stores `defs || {}`
under `name` and, when `currentTheme` is falsy (`null` or `''`),
activates `name`; requests no render. -/
def registerThemeOp (b : Bridge) (name : String) (defs : Option ThemeDef) : Bridge × Bool :=
  ({ b with
      themes := setTheme b.themes name (defs.getD [])
      currentTheme := if currentTruthy b.currentTheme then b.currentTheme else some name },
   false)

/-- `setCurrentTheme(name)` (lines 58–73): sets the current theme and
requests a style re-render via the style manager. -/
def setCurrentThemeOp (b : Bridge) (name : String) : Bridge × Bool :=
  ({ b with currentTheme := some name }, true)

/-- `getThemes()` (line 75): `{ themes: { ...themes }, currentTheme }`. -/
def getThemesB (b : Bridge) : List (String × ThemeDef) × Option String :=
  (b.themes, b.currentTheme)

/-- Folding a list of `registerTheme` calls over the bridge. -/
def registerThemeSeq (b : Bridge) (calls : List (String × Option ThemeDef)) : Bridge :=
  calls.foldl (fun acc q => (registerThemeOp acc q.1 q.2).1) b

/-! ## `getCssForWeb` (`themedStylerBridge.ts` lines 212–243)

The function tries, in order: the platform render hook
(`globalThis.__themedStylerRenderCss`, its exceptions swallowed by an
empty `catch`), the Node `cargo run -p hook-transpiler` CLI (exceptions
likewise swallowed), and finally a diagnostic placeholder comment built
from the usage snapshot with `JSON.stringify`. -/

/-- One character of JS `JSON.stringify` string-escaping. -/
def jsonEscapeChar (c : Char) : String :=
  if c = '"' then "\\\"" else
  if c = '\\' then "\\\\" else
  if c = '\n' then "\\n" else
  if c = '\r' then "\\r" else
  if c = '\t' then "\\t" else
  if c = Char.ofNat 8 then "\\b" else
  if c = Char.ofNat 12 then "\\f" else
  if c.toNat < 32 then
    "\\u00" ++ String.singleton (Char.ofNat (if c.toNat / 16 < 10 then 48 + c.toNat / 16 else 87 + c.toNat / 16))
      ++ String.singleton (Char.ofNat (if c.toNat % 16 < 10 then 48 + c.toNat % 16 else 87 + c.toNat % 16))
  else String.singleton c

/-- `JSON.stringify` of a string. -/
def jsonQuote (s : String) : String :=
  "\"" ++ String.join (s.data.map jsonEscapeChar) ++ "\""

/-- `JSON.stringify` of an array of strings (no spaces, comma
separated). -/
def jsonStringifyArr (xs : List String) : String :=
  "[" ++ ",".intercalate (xs.map jsonQuote) ++ "]"

/-- The environment `getCssForWeb` probes:
`renderCssHook` models `globalThis.__themedStylerRenderCss` (a platform
style engine, which may throw — `Except.error`), and `nodeCli` models
the Node branch (`some out` when running under Node and the
`hook-transpiler` CLI succeeds with output `out`; `none` when not under
Node or when the CLI invocation throws, both of which fall through). -/
structure CssEnv where
  renderCssHook :
    Option (List String × List String × List String →
            List (String × ThemeDef) × Option String → Except String String)
  nodeCli : Option String

/-- `getCssForWeb()` (lines 212–243): platform hook first (errors
swallowed), then the Node CLI, then the fallback placeholder
`/* themed-styler fallback (no renderer): ... */` listing
`classes`, `tags` and `tagClasses` of the usage snapshot. -/
def getCssForWeb (env : CssEnv) (b : Bridge) : String :=
  let viaHook : Option String :=
    match env.renderCssHook with
    | some f =>
      match f (getUsageSnapshotU b.usage) (getThemesB b) with
      | .ok s => some s
      | .error _ => none
    | none => none
  match viaHook with
  | some s => s
  | none =>
    match env.nodeCli with
    | some out => out
    | none =>
      "/* themed-styler fallback (no renderer):\nclasses="
        ++ jsonStringifyArr (getUsageSnapshotU b.usage).2.1
        ++ "\ntags=" ++ jsonStringifyArr (getUsageSnapshotU b.usage).1
        ++ "\ntagClasses=" ++ jsonStringifyArr (getUsageSnapshotU b.usage).2.2
        ++ "\n*/"

/-! ## `buildPeer` (`src/packages/web/src/components/HookRenderer.tsx` line 96)

`const buildPeer = (p) => normalizedHost + (p.startsWith('/') ? p : '/' + p)`
— exposed to hooks as `helpers.buildPeerUrl`. -/

/-- JS `p.startsWith('/')`: the first character is a slash. -/
def startsWithSlash (s : String) : Bool :=
  match s.data with
  | '/' :: _ => true
  | _ => false

/-- `buildPeerUrl(path)`: the peer's normalized base URL followed by
the path, a slash inserted when the path does not start with one. -/
def buildPeerUrl (normalizedHost : String) (p : String) : String :=
  normalizedHost ++ (if startsWithSlash p then p else "/" ++ p)

/-! ## Hook Loader in-flight cache

The `HookLoader` implementation is imported from
`@clevertree/relay-client-shared` and is not under `src/` (only its
callers are), so the loader's caching/concurrency behaviour is modelled
from the spec. -/

/-- Modelled from the spec: the Hook Loader's state — its cache of
in-flight/completed loads per `ModuleKey` (each identified by the
shared promise it hands out) together with logs of the pipeline stages
it has started (fetch → transpile → execute).  The `HookLoader` class
itself is not under `src/`; this follows §4.1: "a `ModuleKey` with an
in-flight load returns the same pending promise to every concurrent
caller — no duplicate network fetch, transpile, or execution for one
key." -/
structure LoaderState where
  cache : List (String × Nat)
  fetchLog : List String
  transpileLog : List String
  execLog : List String
  nextPromise : Nat
deriving DecidableEq

/-- Lookup of a key's shared promise in the cache. -/
def cacheLookup (c : List (String × Nat)) (key : String) : Option Nat :=
  (c.find? (fun q => q.1 == key)).map (fun q => q.2)

/-- Modelled from the spec: `loadModule(key)` under single-threaded
cooperative scheduling.  A cached key returns its shared promise and
performs no pipeline stage; an uncached key allocates a fresh promise,
caches it, and starts exactly one fetch, one transpile and one execute
for that key. -/
def loadModuleL (st : LoaderState) (key : String) : Nat × LoaderState :=
  match cacheLookup st.cache key with
  | some p => (p, st)
  | none =>
    (st.nextPromise,
     { cache := st.cache ++ [(key, st.nextPromise)]
       fetchLog := st.fetchLog ++ [key]
       transpileLog := st.transpileLog ++ [key]
       execLog := st.execLog ++ [key]
       nextPromise := st.nextPromise + 1 })

/-- `n` further concurrent `loadModule` calls for the same key,
collecting the promises handed out. -/
def loadModuleCalls : Nat → LoaderState → String → List Nat × LoaderState
  | 0, st, _ => ([], st)
  | n + 1, st, key =>
    let r := loadModuleL st key
    let rest := loadModuleCalls n r.2 key
    (r.1 :: rest.1, rest.2)

/-- Occurrences of a key in a stage log. -/
def logCount (log : List String) (key : String) : Nat :=
  (log.filter (fun k => k == key)).length

/-! ## Reference-cell model of the read operations (frame property)

`getUsageSnapshot` returns `Array.from(set.values())` — three freshly
allocated arrays — and `getThemes` returns `{ themes: { ...themes },
currentTheme }` — a freshly allocated object holding a shallow copy of
the themes record.  To state that mutating those return values cannot
reach the registry, the relevant part of the JS heap is made explicit:
cells `0`–`3` hold the module-level registry (the three usage sets and
the themes record) and every allocation returns a fresh cell at
`next`. -/

/-- A heap cell: an array of strings (a usage set / snapshot array) or
a themes object (`{ themes, currentTheme }`). -/
inductive HCell where
  | arr : List String → HCell
  | obj : List (String × ThemeDef) → Option String → HCell
deriving DecidableEq

/-- The mutable heap: an allocation cursor and cell contents. -/
structure Heap where
  next : Nat
  mem : Nat → HCell

/-- Fixed cells of the module-level registry. -/
def rTags : Nat := 0
/-- Registry cell of the `classes` set. -/
def rClasses : Nat := 1
/-- Registry cell of the `tagClasses` set. -/
def rTagClasses : Nat := 2
/-- Registry cell of the `themes` record (with `currentTheme`). -/
def rThemes : Nat := 3

/-- Read an array cell. -/
def readArr (h : Heap) (r : Nat) : List String :=
  match h.mem r with
  | .arr xs => xs
  | _ => []

/-- Allocate a fresh cell holding `c`. -/
def halloc (h : Heap) (c : HCell) : Nat × Heap :=
  (h.next, { next := h.next + 1, mem := fun i => if i = h.next then c else h.mem i })

/-- Overwrite a cell (a caller mutating a value it was handed). -/
def hwrite (h : Heap) (r : Nat) (c : HCell) : Heap :=
  { h with mem := fun i => if i = r then c else h.mem i }

/-- `getUsageSnapshot()` over the explicit heap: three `Array.from`
copies of the registry sets, each a fresh allocation. -/
def getUsageSnapshotH (h : Heap) : (Nat × Nat × Nat) × Heap :=
  let a1 := halloc h (.arr (readArr h rTags))
  let a2 := halloc a1.2 (.arr (readArr a1.2 rClasses))
  let a3 := halloc a2.2 (.arr (readArr a2.2 rTagClasses))
  ((a1.1, a2.1, a3.1), a3.2)

/-- The fresh object `{ themes: { ...themes }, currentTheme }` built
from the registry cell's current contents. -/
def themesCopy : HCell → HCell
  | .obj ts cur => .obj ts cur
  | _ => .obj [] none

/-- `getThemes()` over the explicit heap: a fresh allocation holding a
shallow copy of the themes record and the current theme name. -/
def getThemesH (h : Heap) : Nat × Heap :=
  halloc h (themesCopy (h.mem rThemes))

/-- The scenario of the frame claim: take a usage snapshot, read the
themes, then overwrite every returned cell with arbitrary contents
(`c1`–`c4`) — the caller mutating everything it was handed. -/
def mutateReturned (h : Heap) (c1 c2 c3 c4 : HCell) : Heap :=
  let s := getUsageSnapshotH h
  let t := getThemesH s.2
  hwrite (hwrite (hwrite (hwrite t.2 s.1.1 c1) s.1.2.1 c2) s.1.2.2 c3) t.1 c4

/-! # Helper lemmas -/

theorem mem_addOnce (l : List String) (x y : String) :
    y ∈ addOnce l x ↔ y ∈ l ∨ y = x := by
  by_cases h : x ∈ l
  · simp only [addOnce, if_pos h]
    constructor
    · exact Or.inl
    · rintro (hy | rfl) <;> [exact hy; exact h]
  · simp [addOnce, if_neg h]

theorem addOnce_of_mem {l : List String} {x : String} (h : x ∈ l) :
    addOnce l x = l := by
  simp [addOnce, if_pos h]

theorem self_mem_addOnce (l : List String) (x : String) : x ∈ addOnce l x := by
  rw [mem_addOnce]; exact Or.inr rfl

theorem usageFold_tags (tag : String) (toks : List String) (a : Usage) :
    (toks.foldl (usageAddClass tag) a).tags = a.tags := by
  induction toks generalizing a with
  | nil => rfl
  | cons c cs ih => simpa [usageAddClass] using ih _

theorem mem_usageFold_classes (tag : String) (toks : List String) (a : Usage) (y : String) :
    y ∈ (toks.foldl (usageAddClass tag) a).classes ↔ y ∈ a.classes ∨ y ∈ toks := by
  induction toks generalizing a with
  | nil => simp
  | cons c cs ih =>
    simp only [List.foldl_cons, ih, usageAddClass, mem_addOnce, List.mem_cons]
    tauto

theorem mem_usageFold_tagClasses (tag : String) (toks : List String) (a : Usage) (q : String) :
    q ∈ (toks.foldl (usageAddClass tag) a).tagClasses ↔
      q ∈ a.tagClasses ∨ ((tag != "") = true ∧ ∃ c ∈ toks, q = tag ++ "|" ++ c) := by
  induction toks generalizing a with
  | nil => simp
  | cons c cs ih =>
    simp only [List.foldl_cons]
    rw [ih]
    by_cases ht : (tag != "") = true
    · simp only [usageAddClass, ht, if_true, mem_addOnce, true_and, List.mem_cons]
      constructor
      · rintro ((hq | rfl) | ⟨d, hd, rfl⟩)
        · exact Or.inl hq
        · exact Or.inr ⟨c, Or.inl rfl, rfl⟩
        · exact Or.inr ⟨d, Or.inr hd, rfl⟩
      · rintro (hq | ⟨d, (rfl | hd), rfl⟩)
        · exact Or.inl (Or.inl hq)
        · exact Or.inl (Or.inr rfl)
        · exact Or.inr ⟨d, hd, rfl⟩
    · simp [usageAddClass, ht]

theorem usageFold_fixed (tag : String) (toks : List String) (a : Usage)
    (h : ∀ c ∈ toks, c ∈ a.classes ∧ ((tag != "") = true → tag ++ "|" ++ c ∈ a.tagClasses)) :
    toks.foldl (usageAddClass tag) a = a := by
  induction toks with
  | nil => rfl
  | cons c cs ih =>
    have hc := h c (List.mem_cons_self c cs)
    have hstep : usageAddClass tag a c = a := by
      by_cases ht : (tag != "") = true
      · simp [usageAddClass, ht, addOnce_of_mem hc.1, addOnce_of_mem (hc.2 ht)]
      · simp [usageAddClass, ht, addOnce_of_mem hc.1]
    simpa [hstep] using ih (fun d hd => h d (List.mem_cons_of_mem c hd))

theorem registerUsageU_idem (u : Usage) (tag : String) (pr : Option Props) :
    registerUsageU (registerUsageU u tag pr) tag pr = registerUsageU u tag pr := by
  set r := registerUsageU u tag pr with hr
  have htags : (tag != "") = true → tag ∈ r.tags := by
    intro ht
    rw [hr]
    unfold registerUsageU
    rw [usageFold_tags]
    simp only [ht, if_true]
    exact self_mem_addOnce _ _
  have hcls : ∀ c ∈ classTokens pr, c ∈ r.classes := by
    intro c hcmem
    rw [hr]
    unfold registerUsageU
    rw [mem_usageFold_classes]
    exact Or.inr hcmem
  have hpairs : ∀ c ∈ classTokens pr, (tag != "") = true → tag ++ "|" ++ c ∈ r.tagClasses := by
    intro c hcmem ht
    rw [hr]
    unfold registerUsageU
    rw [mem_usageFold_tagClasses]
    exact Or.inr ⟨ht, c, hcmem, rfl⟩
  show registerUsageU r tag pr = r
  unfold registerUsageU
  have hstep : (if tag != "" then { r with tags := addOnce r.tags tag } else r) = r := by
    by_cases ht : (tag != "") = true
    · simp [ht, addOnce_of_mem (htags ht)]
    · simp [ht]
  rw [hstep]
  exact usageFold_fixed tag _ r (fun c hcm => ⟨hcls c hcm, hpairs c hcm⟩)

theorem getTheme_setTheme (m : String) (d : ThemeDef) :
    ∀ ts : List (String × ThemeDef), getTheme (setTheme ts m d) m = some d := by
  intro ts
  induction ts with
  | nil => simp [setTheme, getTheme]
  | cons a as ih =>
    by_cases ha : (a.1 == m) = true
    · have ham : a.1 = m := by simpa using ha
      simp [setTheme, getTheme, List.any_cons, ha, ham, List.find?]
    · have ham : ¬(a.1 = m) := by simpa using ha
      have hstep : setTheme (a :: as) m d = a :: setTheme as m d := by
        by_cases h2 : as.any (fun q => q.1 == m) <;>
          simp [setTheme, List.any_cons, ha, ham, h2]
      rw [hstep]
      simpa [getTheme, List.find?, ha] using ih

theorem registerThemeSeq_keeps (n : String) (hn : n ≠ "") :
    ∀ (l : List (String × Option ThemeDef)) (b : Bridge),
      b.currentTheme = some n → (registerThemeSeq b l).currentTheme = some n := by
  intro l
  induction l with
  | nil => intro b hb; exact hb
  | cons q qs ih =>
    intro b hb
    apply ih
    simp [registerThemeSeq, registerThemeOp, hb, currentTruthy, hn]

theorem loadModuleL_cached {st : LoaderState} {key : String} {p : Nat}
    (h : cacheLookup st.cache key = some p) : loadModuleL st key = (p, st) := by
  simp [loadModuleL, h]

theorem cacheLookup_after {st : LoaderState} {key : String}
    (h : cacheLookup st.cache key = none) :
    cacheLookup (loadModuleL st key).2.cache key = some (loadModuleL st key).1 := by
  have hf : st.cache.find? (fun q => q.1 == key) = none := by
    cases hh : st.cache.find? (fun q => q.1 == key) with
    | none => rfl
    | some v => simp [cacheLookup, hh] at h
  simp [loadModuleL, h, cacheLookup, List.find?_append, hf]

theorem loadModuleCalls_cached {st : LoaderState} {key : String} {p : Nat}
    (h : cacheLookup st.cache key = some p) :
    ∀ n, loadModuleCalls n st key = (List.replicate n p, st) := by
  intro n
  induction n with
  | zero => rfl
  | succ k ih => simp [loadModuleCalls, loadModuleL_cached h, ih, List.replicate_succ]

theorem logCount_append_self (l : List String) (key : String) :
    logCount (l ++ [key]) key = logCount l key + 1 := by
  simp [logCount, List.filter_append]

theorem mem_hwrite_ne (h : Heap) (r : Nat) (c : HCell) (i : Nat) (hi : i ≠ r) :
    (hwrite h r c).mem i = h.mem i := by
  simp [hwrite, hi]

theorem mem_halloc_ne (h : Heap) (c : HCell) (i : Nat) (hi : i ≠ h.next) :
    (halloc h c).2.mem i = h.mem i := by
  simp [halloc, hi]

theorem mem_snapshot_ne (h : Heap) (i : Nat) (h1 : i ≠ h.next) (h2 : i ≠ h.next + 1)
    (h3 : i ≠ h.next + 2) : (getUsageSnapshotH h).2.mem i = h.mem i := by
  simp [getUsageSnapshotH, halloc, h1, h2, h3]

theorem mem_mutateReturned_ne (h : Heap) (c1 c2 c3 c4 : HCell) (i : Nat)
    (h1 : i ≠ h.next) (h2 : i ≠ h.next + 1) (h3 : i ≠ h.next + 2) (h4 : i ≠ h.next + 3) :
    (mutateReturned h c1 c2 c3 c4).mem i = h.mem i := by
  simp [mutateReturned, getUsageSnapshotH, getThemesH, halloc, hwrite, h1, h2, h3, h4]

theorem next_mutateReturned (h : Heap) (c1 c2 c3 c4 : HCell) :
    (mutateReturned h c1 c2 c3 c4).next = h.next + 4 := rfl

theorem snapshot_copies (g : Heap) (hg : 4 ≤ g.next) :
    readArr (getUsageSnapshotH g).2 (getUsageSnapshotH g).1.1 = readArr g rTags ∧
    readArr (getUsageSnapshotH g).2 (getUsageSnapshotH g).1.2.1 = readArr g rClasses ∧
    readArr (getUsageSnapshotH g).2 (getUsageSnapshotH g).1.2.2 = readArr g rTagClasses := by
  have e0 : rTags ≠ g.next := by unfold rTags; omega
  have e1 : rClasses ≠ g.next := by unfold rClasses; omega
  have e2 : rTagClasses ≠ g.next := by unfold rTagClasses; omega
  have e1' : rClasses ≠ g.next + 1 := by unfold rClasses; omega
  have e2' : rTagClasses ≠ g.next + 1 := by unfold rTagClasses; omega
  have e2'' : rTagClasses ≠ g.next + 2 := by unfold rTagClasses; omega
  have s1 : g.next ≠ g.next + 1 := by omega
  have s2 : g.next ≠ g.next + 1 + 1 := by omega
  have s3 : g.next + 1 ≠ g.next + 1 + 1 := by omega
  have s4 : g.next ≠ g.next + 2 := by omega
  have s5 : g.next + 1 ≠ g.next + 2 := by omega
  refine ⟨?_, ?_, ?_⟩ <;>
    simp [getUsageSnapshotH, halloc, readArr, e0, e1, e2, e1', e2', e2'',
      s1, s2, s3, s4, s5]

theorem getThemesH_content (g : Heap) :
    (getThemesH g).2.mem (getThemesH g).1 = themesCopy (g.mem rThemes) := by
  simp [getThemesH, halloc]

theorem readArr_eq_of_mem {g g' : Heap} {r : Nat} (e : g'.mem r = g.mem r) :
    readArr g' r = readArr g r := by
  simp [readArr, e]

/-! # Claim theorems -/

/-- C1: the claim says the third-argument key takes precedence over a
`key` field in the props object.  In the source
(`runtimeLoader.test.ts` lines 26–42) the `if (config && 'key' in
config)` branch overwrites the key computed from `maybeKey`, so at
`('div', {children:'hello', key:'config-key'}, 'param-key')` the
produced element's key is `'config-key'`, not `String(maybeKey) =
'param-key'` — contradicting the claim and the repository's own test
(line 69 expects `'param-key'`). -/
theorem jsx_factory_config_key_overrides_third_arg :
    (jsxFactory "div" [("children", JsVal.vstr "hello"), ("key", JsVal.vstr "config-key")]
      (JsVal.vstr "param-key")).ekey = JsVal.vstr "config-key" ∧
    ¬ (jsxFactory "div" [("children", JsVal.vstr "hello"), ("key", JsVal.vstr "config-key")]
      (JsVal.vstr "param-key")).ekey = JsVal.vstr "param-key" :=
  ⟨rfl, fun h => absurd (JsVal.vstr.inj h) (by decide)⟩

/-- C2: the claim says that when `maybeKey` is `undefined` and the
props contain `key`, the key field is stripped from the props of the
produced element.  In the source the factory re-inserts the key into
the props it forwards (`{ ...propsWithoutKey, key }`) and the mock
classic creator (lines 11–21) copies the props verbatim, so the
produced element still has `props.key === 'config-key'` — contradicting
the claim and the repository's own tests (lines 85 and 147 expect
`props.key` to be `undefined`).  The element's key itself and
unrelated props (`className`) do match the claim. -/
theorem jsx_factory_key_remains_in_props :
    (jsxFactory "div"
      [("children", JsVal.vstr "hello"), ("key", JsVal.vstr "config-key"),
       ("className", JsVal.vstr "test")] JsVal.vundef).ekey = JsVal.vstr "config-key" ∧
    getField (jsxFactory "div"
      [("children", JsVal.vstr "hello"), ("key", JsVal.vstr "config-key"),
       ("className", JsVal.vstr "test")] JsVal.vundef).eprops "key" =
      some (JsVal.vstr "config-key") ∧
    getField (jsxFactory "div"
      [("children", JsVal.vstr "hello"), ("key", JsVal.vstr "config-key"),
       ("className", JsVal.vstr "test")] JsVal.vundef).eprops "className" =
      some (JsVal.vstr "test") :=
  ⟨rfl, rfl, rfl⟩

/-- C3 counterexample: the claim says every `registerUsage` and
`registerTheme` call schedules a style re-render, but neither function
in `themedStylerBridge.ts` contains a `requestRender` call — at these
concrete calls the render-request flag is `false`. -/
theorem register_ops_do_not_request_render_cx :
    (registerUsageOp emptyBridge "div" (some [("className", JsVal.vstr "a")])).2 = false ∧
    (registerThemeOp emptyBridge "dark" none).2 = false :=
  ⟨rfl, rfl⟩

/-- C3 (amended): of the three bridge operations only `setCurrentTheme`
requests a style re-render; `registerUsage` and `registerTheme` mutate
the registries without requesting one (their callers, e.g. `TSDiv` and
`HookRenderer`, call `styleManager.requestRender` themselves). -/
theorem only_setCurrentTheme_requests_render (b : Bridge) (tag : String) (pr : Option Props)
    (n m : String) (d : Option ThemeDef) :
    (registerUsageOp b tag pr).2 = false ∧ (registerThemeOp b n d).2 = false ∧
    (setCurrentThemeOp b m).2 = true :=
  ⟨rfl, rfl, rfl⟩

/-- C4 counterexample: starting from the empty registry,
`registerTheme('')` sets `currentTheme` to `''`, and because the
source's guard is JS truthiness (`if (!currentTheme)`), the *second*
call `registerTheme('light')` overwrites it — a subsequent call that
does not leave `currentTheme` unchanged, refuting the claim as
stated. -/
theorem registerTheme_empty_name_cx :
    (registerThemeOp emptyBridge "" none).1.currentTheme = some "" ∧
    (registerThemeOp (registerThemeOp emptyBridge "" none).1 "light" none).1.currentTheme =
      some "light" ∧
    ¬ (registerThemeOp (registerThemeOp emptyBridge "" none).1 "light" none).1.currentTheme =
      (registerThemeOp emptyBridge "" none).1.currentTheme := by
  refine ⟨rfl, rfl, ?_⟩
  decide

/-- C4 (amended): from an empty registry the first `registerTheme`
call makes the registered name current, and — provided that first name
is non-empty (JS-truthy) — every subsequent `registerTheme` call,
including re-registration of an existing name (which overwrites its
stored definition), leaves `currentTheme` unchanged. -/
theorem registerTheme_first_nonempty_stays_current (n : String) (d : Option ThemeDef)
    (l : List (String × Option ThemeDef)) (b : Bridge) (m : String) (e : Option ThemeDef)
    (hn : n ≠ "") :
    (registerThemeOp emptyBridge n d).1.currentTheme = some n ∧
    (registerThemeSeq (registerThemeOp emptyBridge n d).1 l).currentTheme = some n ∧
    getTheme ((registerThemeOp b m e).1).themes m = some (e.getD []) := by
  have h1 : (registerThemeOp emptyBridge n d).1.currentTheme = some n := by
    simp [registerThemeOp, emptyBridge, currentTruthy]
  exact ⟨h1, registerThemeSeq_keeps n hn l _ h1,
    getTheme_setTheme m (e.getD []) b.themes⟩

/-- C4 witness: the amended statement at `n = 'dark'`, a subsequent
`registerTheme('light')` call, and a concrete overwrite. -/
theorem registerTheme_first_nonempty_stays_current_witness :
    (registerThemeOp emptyBridge "dark" none).1.currentTheme = some "dark" ∧
    (registerThemeSeq (registerThemeOp emptyBridge "dark" none).1
      [("light", none)]).currentTheme = some "dark" ∧
    getTheme ((registerThemeOp emptyBridge "dark"
      (some [("color", "red")])).1).themes "dark" = some [("color", "red")] :=
  registerTheme_first_nonempty_stays_current "dark" none [("light", none)] emptyBridge
    "dark" (some [("color", "red")]) (by decide)

/-- C5: for a key with no cached load, the first `loadModule` call
starts exactly one fetch, one transpile and one execute, and every one
of the `n` further calls made while that load is in flight returns the
same shared promise and leaves the state (hence the stage counts)
untouched.  Modelled from the spec (§4.1): the `HookLoader`
implementation is not under `src/`. -/
theorem loadModule_single_flight (st : LoaderState) (key : String) (n : Nat)
    (h : cacheLookup st.cache key = none) :
    (loadModuleCalls n (loadModuleL st key).2 key).2 = (loadModuleL st key).2 ∧
    (loadModuleCalls n (loadModuleL st key).2 key).1 =
      List.replicate n (loadModuleL st key).1 ∧
    logCount (loadModuleL st key).2.fetchLog key = logCount st.fetchLog key + 1 ∧
    logCount (loadModuleL st key).2.transpileLog key = logCount st.transpileLog key + 1 ∧
    logCount (loadModuleL st key).2.execLog key = logCount st.execLog key + 1 := by
  have hc := cacheLookup_after h
  have hcalls := loadModuleCalls_cached hc n
  refine ⟨by rw [hcalls], by rw [hcalls], ?_, ?_, ?_⟩ <;>
    simp [loadModuleL, h, logCount_append_self]

/-- C5 witness: two concurrent calls for `/x.jsx` from the fresh
loader state observe one pipeline cycle and the shared promise `0`. -/
theorem loadModule_single_flight_witness :
    (loadModuleCalls 2 (loadModuleL ⟨[], [], [], [], 0⟩ "/x.jsx").2 "/x.jsx").2 =
      (loadModuleL ⟨[], [], [], [], 0⟩ "/x.jsx").2 ∧
    (loadModuleCalls 2 (loadModuleL ⟨[], [], [], [], 0⟩ "/x.jsx").2 "/x.jsx").1 =
      List.replicate 2 (loadModuleL ⟨[], [], [], [], 0⟩ "/x.jsx").1 ∧
    logCount (loadModuleL ⟨[], [], [], [], 0⟩ "/x.jsx").2.fetchLog "/x.jsx" =
      logCount ([] : List String) "/x.jsx" + 1 ∧
    logCount (loadModuleL ⟨[], [], [], [], 0⟩ "/x.jsx").2.transpileLog "/x.jsx" =
      logCount ([] : List String) "/x.jsx" + 1 ∧
    logCount (loadModuleL ⟨[], [], [], [], 0⟩ "/x.jsx").2.execLog "/x.jsx" =
      logCount ([] : List String) "/x.jsx" + 1 :=
  loadModule_single_flight ⟨[], [], [], [], 0⟩ "/x.jsx" 2 rfl

/-- C6 counterexample: the claim reads the `class` field only when
`className` is *absent*.  The source computes
`props.className || props.class || ''`, so a present-but-empty
`className` (falsy) falls through to `class`: at
`registerUsage('div', {className:'', class:'a'})` the claim predicts
no class tokens (its extraction yields `''`), but the code adds the
class `'a'`. -/
theorem registerUsage_class_fallback_cx :
    claimClassAttrC6 (some [("className", JsVal.vstr ""), ("class", JsVal.vstr "a")]) =
      JsVal.vstr "" ∧
    classTokens (some [("className", JsVal.vstr ""), ("class", JsVal.vstr "a")]) = ["a"] ∧
    (registerUsageU ⟨[], [], []⟩ "div"
      (some [("className", JsVal.vstr ""), ("class", JsVal.vstr "a")])).classes = ["a"] :=
  ⟨rfl, rfl, by decide⟩

/-- C6 (amended): for every non-empty tag and props,
`registerUsage(tag, props)` takes the first JS-truthy of
`props.className` and `props.class` (an empty or otherwise falsy
`className` is skipped in favour of `class`), splits it on whitespace
when it is a string (a non-string truthy value yields no tokens), and
adds exactly the tag to the tag set, each token to the class set and
each `tag|token` pair to the composite set — and nothing else
(membership characterisation). -/
theorem registerUsage_adds_exactly (u : Usage) (tag : String) (pr : Option Props)
    (x c q : String) (ht : tag ≠ "") :
    (x ∈ (registerUsageU u tag pr).tags ↔ x ∈ u.tags ∨ x = tag) ∧
    (c ∈ (registerUsageU u tag pr).classes ↔ c ∈ u.classes ∨ c ∈ classTokens pr) ∧
    (q ∈ (registerUsageU u tag pr).tagClasses ↔
      q ∈ u.tagClasses ∨ ∃ t ∈ classTokens pr, q = tag ++ "|" ++ t) := by
  have htb : (tag != "") = true := by simpa using ht
  refine ⟨?_, ?_, ?_⟩
  · unfold registerUsageU
    rw [usageFold_tags]
    simp [htb, mem_addOnce]
  · unfold registerUsageU
    rw [mem_usageFold_classes]
    simp [htb]
  · unfold registerUsageU
    rw [mem_usageFold_tagClasses]
    simp [htb]

/-- C6 witness: the membership characterisation at
`registerUsage('div', {className:'a b'})` from the empty registry, for
the tag `'div'`, the class `'a'` and the pair `'div|b'`. -/
theorem registerUsage_adds_exactly_witness :
    ("div" ∈ (registerUsageU ⟨[], [], []⟩ "div"
        (some [("className", JsVal.vstr "a b")])).tags ↔
      "div" ∈ (⟨[], [], []⟩ : Usage).tags ∨ "div" = "div") ∧
    ("a" ∈ (registerUsageU ⟨[], [], []⟩ "div"
        (some [("className", JsVal.vstr "a b")])).classes ↔
      "a" ∈ (⟨[], [], []⟩ : Usage).classes ∨
        "a" ∈ classTokens (some [("className", JsVal.vstr "a b")])) ∧
    ("div|b" ∈ (registerUsageU ⟨[], [], []⟩ "div"
        (some [("className", JsVal.vstr "a b")])).tagClasses ↔
      "div|b" ∈ (⟨[], [], []⟩ : Usage).tagClasses ∨
        ∃ t ∈ classTokens (some [("className", JsVal.vstr "a b")]),
          "div|b" = "div" ++ "|" ++ t) :=
  registerUsage_adds_exactly ⟨[], [], []⟩ "div" (some [("className", JsVal.vstr "a b")])
    "div" "a" "div|b" (by decide)

/-- C7: `registerUsage` is idempotent — for every registry state, tag
and props, calling it twice in succession yields the same usage
snapshot as calling it once (JS `Set.add` of a present element is a
no-op, so the sets and their insertion order are unchanged). -/
theorem registerUsage_snapshot_idem (u : Usage) (tag : String) (pr : Option Props) :
    getUsageSnapshotU (registerUsageU (registerUsageU u tag pr) tag pr) =
      getUsageSnapshotU (registerUsageU u tag pr) := by
  rw [registerUsageU_idem]

/-- C8: when no style engine is available — no platform render hook
installed and no Node CLI path — `getCssForWeb` returns (totally,
without throwing) the diagnostic placeholder comment listing the
recorded usage: the JSON-rendered `classes`, `tags` and `tagClasses`
of the current usage snapshot. -/
theorem getCssForWeb_no_engine_placeholder (env : CssEnv) (b : Bridge)
    (h1 : env.renderCssHook = none) (h2 : env.nodeCli = none) :
    getCssForWeb env b =
      "/* themed-styler fallback (no renderer):\nclasses="
        ++ jsonStringifyArr (getUsageSnapshotU b.usage).2.1
        ++ "\ntags=" ++ jsonStringifyArr (getUsageSnapshotU b.usage).1
        ++ "\ntagClasses=" ++ jsonStringifyArr (getUsageSnapshotU b.usage).2.2
        ++ "\n*/" := by
  simp [getCssForWeb, h1, h2]

/-- C8 witness: with no engine and usage
`{tags:['div'], classes:['a'], tagClasses:['div|a']}` on record, the
placeholder lists that usage. -/
theorem getCssForWeb_no_engine_placeholder_witness :
    getCssForWeb ⟨none, none⟩ { emptyBridge with usage := ⟨["div"], ["a"], ["div|a"]⟩ } =
      "/* themed-styler fallback (no renderer):\nclasses=[\"a\"]\ntags=[\"div\"]\ntagClasses=[\"div|a\"]\n*/" :=
  (getCssForWeb_no_engine_placeholder ⟨none, none⟩
    { emptyBridge with usage := ⟨["div"], ["a"], ["div|a"]⟩ } rfl rfl).trans rfl

/-- C9: `buildPeerUrl(path)` is the peer's normalized base URL
followed by the path — unchanged when the path already starts with a
slash, and with exactly one slash inserted between them otherwise. -/
theorem buildPeerUrl_slash_insertion (host p : String) :
    (startsWithSlash p = true → buildPeerUrl host p = host ++ p) ∧
    (startsWithSlash p = false → buildPeerUrl host p = host ++ ("/" ++ p)) := by
  constructor <;> intro h <;> simp [buildPeerUrl, h]

/-- C9 witness: both branches at concrete paths. -/
theorem buildPeerUrl_slash_insertion_witness :
    buildPeerUrl "https://peer" "/a.jsx" = "https://peer/a.jsx" ∧
    buildPeerUrl "https://peer" "b.jsx" = "https://peer/b.jsx" :=
  ⟨((buildPeerUrl_slash_insertion "https://peer" "/a.jsx").1 rfl).trans rfl,
   ((buildPeerUrl_slash_insertion "https://peer" "b.jsx").2 rfl).trans rfl⟩

/-- C10: the read operations do not alias registry state.  On any heap
whose allocator is past the registry cells, `getUsageSnapshot` hands
out three freshly allocated copies and `getThemes` a freshly allocated
shallow copy, so (i) overwriting all four returned cells with
arbitrary contents leaves every registry cell unchanged, (ii) the
snapshot cells hold exactly the registry's contents, and (iii) a
second `getUsageSnapshot`/`getThemes` after those mutations still
returns the same contents as the first. -/
theorem snapshot_reads_do_not_alias_registry (h : Heap) (c1 c2 c3 c4 : HCell)
    (hn : 4 ≤ h.next) :
    ((mutateReturned h c1 c2 c3 c4).mem rTags = h.mem rTags ∧
     (mutateReturned h c1 c2 c3 c4).mem rClasses = h.mem rClasses ∧
     (mutateReturned h c1 c2 c3 c4).mem rTagClasses = h.mem rTagClasses ∧
     (mutateReturned h c1 c2 c3 c4).mem rThemes = h.mem rThemes) ∧
    (readArr (getUsageSnapshotH h).2 (getUsageSnapshotH h).1.1 = readArr h rTags ∧
     readArr (getUsageSnapshotH h).2 (getUsageSnapshotH h).1.2.1 = readArr h rClasses ∧
     readArr (getUsageSnapshotH h).2 (getUsageSnapshotH h).1.2.2 = readArr h rTagClasses) ∧
    (readArr (getUsageSnapshotH (mutateReturned h c1 c2 c3 c4)).2
        (getUsageSnapshotH (mutateReturned h c1 c2 c3 c4)).1.1 = readArr h rTags ∧
     readArr (getUsageSnapshotH (mutateReturned h c1 c2 c3 c4)).2
        (getUsageSnapshotH (mutateReturned h c1 c2 c3 c4)).1.2.1 = readArr h rClasses ∧
     readArr (getUsageSnapshotH (mutateReturned h c1 c2 c3 c4)).2
        (getUsageSnapshotH (mutateReturned h c1 c2 c3 c4)).1.2.2 = readArr h rTagClasses) ∧
    (getThemesH (mutateReturned h c1 c2 c3 c4)).2.mem
        (getThemesH (mutateReturned h c1 c2 c3 c4)).1 =
      (getThemesH h).2.mem (getThemesH h).1 := by
  have pres : ∀ i, i < 4 → (mutateReturned h c1 c2 c3 c4).mem i = h.mem i := fun i hi =>
    mem_mutateReturned_ne h c1 c2 c3 c4 i (by omega) (by omega) (by omega) (by omega)
  have presTags : (mutateReturned h c1 c2 c3 c4).mem rTags = h.mem rTags :=
    pres rTags (by norm_num [rTags])
  have presClasses : (mutateReturned h c1 c2 c3 c4).mem rClasses = h.mem rClasses :=
    pres rClasses (by norm_num [rClasses])
  have presTagClasses : (mutateReturned h c1 c2 c3 c4).mem rTagClasses = h.mem rTagClasses :=
    pres rTagClasses (by norm_num [rTagClasses])
  have presThemes : (mutateReturned h c1 c2 c3 c4).mem rThemes = h.mem rThemes :=
    pres rThemes (by norm_num [rThemes])
  have hn' : 4 ≤ (mutateReturned h c1 c2 c3 c4).next := by
    rw [next_mutateReturned]; omega
  have copies2 := snapshot_copies (mutateReturned h c1 c2 c3 c4) hn'
  refine ⟨⟨presTags, presClasses, presTagClasses, presThemes⟩, snapshot_copies h hn,
    ⟨?_, ?_, ?_⟩, ?_⟩
  · exact copies2.1.trans (readArr_eq_of_mem presTags)
  · exact copies2.2.1.trans (readArr_eq_of_mem presClasses)
  · exact copies2.2.2.trans (readArr_eq_of_mem presTagClasses)
  · rw [getThemesH_content, getThemesH_content, presThemes]

/-- C10 witness: the frame property at a concrete heap (allocator at
4, every cell an empty array) with concrete overwrites of the four
returned cells. -/
theorem snapshot_reads_do_not_alias_registry_witness :
    ((mutateReturned ⟨4, fun _ => HCell.arr []⟩ (HCell.arr ["x"]) (HCell.arr ["y"])
        (HCell.arr ["z"]) (HCell.obj [("t", [])] (some "t"))).mem rTags =
      (⟨4, fun _ => HCell.arr []⟩ : Heap).mem rTags ∧
     (mutateReturned ⟨4, fun _ => HCell.arr []⟩ (HCell.arr ["x"]) (HCell.arr ["y"])
        (HCell.arr ["z"]) (HCell.obj [("t", [])] (some "t"))).mem rClasses =
      (⟨4, fun _ => HCell.arr []⟩ : Heap).mem rClasses ∧
     (mutateReturned ⟨4, fun _ => HCell.arr []⟩ (HCell.arr ["x"]) (HCell.arr ["y"])
        (HCell.arr ["z"]) (HCell.obj [("t", [])] (some "t"))).mem rTagClasses =
      (⟨4, fun _ => HCell.arr []⟩ : Heap).mem rTagClasses ∧
     (mutateReturned ⟨4, fun _ => HCell.arr []⟩ (HCell.arr ["x"]) (HCell.arr ["y"])
        (HCell.arr ["z"]) (HCell.obj [("t", [])] (some "t"))).mem rThemes =
      (⟨4, fun _ => HCell.arr []⟩ : Heap).mem rThemes) ∧
    (readArr (getUsageSnapshotH ⟨4, fun _ => HCell.arr []⟩).2
        (getUsageSnapshotH ⟨4, fun _ => HCell.arr []⟩).1.1 =
      readArr ⟨4, fun _ => HCell.arr []⟩ rTags ∧
     readArr (getUsageSnapshotH ⟨4, fun _ => HCell.arr []⟩).2
        (getUsageSnapshotH ⟨4, fun _ => HCell.arr []⟩).1.2.1 =
      readArr ⟨4, fun _ => HCell.arr []⟩ rClasses ∧
     readArr (getUsageSnapshotH ⟨4, fun _ => HCell.arr []⟩).2
        (getUsageSnapshotH ⟨4, fun _ => HCell.arr []⟩).1.2.2 =
      readArr ⟨4, fun _ => HCell.arr []⟩ rTagClasses) ∧
    (readArr (getUsageSnapshotH (mutateReturned ⟨4, fun _ => HCell.arr []⟩ (HCell.arr ["x"])
        (HCell.arr ["y"]) (HCell.arr ["z"]) (HCell.obj [("t", [])] (some "t")))).2
        (getUsageSnapshotH (mutateReturned ⟨4, fun _ => HCell.arr []⟩ (HCell.arr ["x"])
        (HCell.arr ["y"]) (HCell.arr ["z"]) (HCell.obj [("t", [])] (some "t")))).1.1 =
      readArr ⟨4, fun _ => HCell.arr []⟩ rTags ∧
     readArr (getUsageSnapshotH (mutateReturned ⟨4, fun _ => HCell.arr []⟩ (HCell.arr ["x"])
        (HCell.arr ["y"]) (HCell.arr ["z"]) (HCell.obj [("t", [])] (some "t")))).2
        (getUsageSnapshotH (mutateReturned ⟨4, fun _ => HCell.arr []⟩ (HCell.arr ["x"])
        (HCell.arr ["y"]) (HCell.arr ["z"]) (HCell.obj [("t", [])] (some "t")))).1.2.1 =
      readArr ⟨4, fun _ => HCell.arr []⟩ rClasses ∧
     readArr (getUsageSnapshotH (mutateReturned ⟨4, fun _ => HCell.arr []⟩ (HCell.arr ["x"])
        (HCell.arr ["y"]) (HCell.arr ["z"]) (HCell.obj [("t", [])] (some "t")))).2
        (getUsageSnapshotH (mutateReturned ⟨4, fun _ => HCell.arr []⟩ (HCell.arr ["x"])
        (HCell.arr ["y"]) (HCell.arr ["z"]) (HCell.obj [("t", [])] (some "t")))).1.2.2 =
      readArr ⟨4, fun _ => HCell.arr []⟩ rTagClasses) ∧
    (getThemesH (mutateReturned ⟨4, fun _ => HCell.arr []⟩ (HCell.arr ["x"])
        (HCell.arr ["y"]) (HCell.arr ["z"]) (HCell.obj [("t", [])] (some "t")))).2.mem
        (getThemesH (mutateReturned ⟨4, fun _ => HCell.arr []⟩ (HCell.arr ["x"])
        (HCell.arr ["y"]) (HCell.arr ["z"]) (HCell.obj [("t", [])] (some "t")))).1 =
      (getThemesH ⟨4, fun _ => HCell.arr []⟩).2.mem
        (getThemesH ⟨4, fun _ => HCell.arr []⟩).1 :=
  snapshot_reads_do_not_alias_registry ⟨4, fun _ => HCell.arr []⟩ (HCell.arr ["x"])
    (HCell.arr ["y"]) (HCell.arr ["z"]) (HCell.obj [("t", [])] (some "t")) (le_refl 4)

